import Mathlib

/-!
Verification of `recipe-app-api` against its specification.

Shallow embedding of the parts of the source the claims are about:

* `app/core/management/commands/wait_for_db.py` — the database readiness
  waiter (`Command.handle`): a `while not db_up` loop around
  `self.check(databases=["default"])` that catches `psycopg2.OperationalError`
  and `django.db.utils.OperationalError`, sleeps one second per failure,
  and writes status lines to stdout.
* `app/core/models.py` — `UserManager.create_user` and
  `recipe_image_file_path`.
* `app/recipe/serializers.py` — `RecipeSerializer.update`.

The waiter's environment (the outcome of each `self.check` call) is modelled
as a list of outcomes, one per consecutive invocation of the check; the run
of the loop consumes that list.  The run returns `none` when the supplied
list is exhausted before the loop terminates (the loop would keep polling).
-/

namespace WaitForDb

/-- The two recognized connection-error classes caught by the
`except (Psycopg2OpError, OperationalError)` clause in `Command.handle`. -/
inductive ConnErrKind where
  | psycopg2Op
  | djangoOp
deriving DecidableEq, Repr

/-- Outcome of one invocation of `self.check(databases=["default"])`:
it returns normally, raises one of the two recognized connection errors,
or raises some other exception (identified here by a message). -/
inductive CheckOutcome where
  | ok
  | connErr (k : ConnErrKind)
  | otherErr (e : String)
deriving DecidableEq, Repr

/-- Observable side effects of `Command.handle`: a line written to stdout,
an invocation of the connection check, or a `time.sleep` of the given
number of seconds. -/
inductive Event where
  | write (s : String)
  | checkCall
  | sleep (seconds : Nat)
deriving DecidableEq, Repr

/-- How a run of `Command.handle` terminates: normal return (process exit 0),
or an uncaught exception propagating out of `handle`. -/
inductive RunResult where
  | success
  | raised (e : String)
deriving DecidableEq, Repr

/-- The `while not db_up` loop of `Command.handle`, consuming one check
outcome per iteration.  On `ok` the loop exits and the success line is
written; on a recognized connection error the unavailability line is written,
the command sleeps 1 second, and the loop repeats; any other exception
aborts the run and propagates.  `none` means the outcome list ran out before
the loop terminated. -/
def handleLoop : List CheckOutcome → Option (List Event × RunResult)
  | [] => none
  | CheckOutcome.ok :: _ =>
      some ([Event.checkCall, Event.write "Database available!"], RunResult.success)
  | CheckOutcome.connErr _ :: rest =>
      (handleLoop rest).map fun p =>
        (Event.checkCall
           :: Event.write "Database unavailable, waiting 1 second..."
           :: Event.sleep 1 :: p.1, p.2)
  | CheckOutcome.otherErr e :: _ =>
      some ([Event.checkCall], RunResult.raised e)

/-- `Command.handle`: writes the banner line, then runs the polling loop. -/
def handle (outcomes : List CheckOutcome) : Option (List Event × RunResult) :=
  (handleLoop outcomes).map fun p =>
    (Event.write "Waiting for database..." :: p.1, p.2)

/-- Number of connection-check invocations in an event trace. -/
def checkCount (evts : List Event) : Nat :=
  evts.countP fun e => match e with | Event.checkCall => true | _ => false

/-- Number of sleep events in an event trace. -/
def sleepCount (evts : List Event) : Nat :=
  evts.countP fun e => match e with | Event.sleep _ => true | _ => false

/-- The ordered list of lines written to stdout in an event trace. -/
def writesOf (evts : List Event) : List String :=
  evts.filterMap fun e => match e with | Event.write s => some s | _ => none

/-- `true` iff every sleep event in the trace sleeps exactly 1 second. -/
def allSleepsOneSecond (evts : List Event) : Bool :=
  evts.all fun e => match e with | Event.sleep n => n = 1 | _ => true

/-- The event trace of a run that fails with connection errors `errs`
(in order) and then succeeds. -/
theorem handleLoop_conn_then_ok (errs : List ConnErrKind) (rest : List CheckOutcome) :
    handleLoop (errs.map CheckOutcome.connErr ++ CheckOutcome.ok :: rest) =
      some ((errs.flatMap fun _ =>
              [Event.checkCall,
               Event.write "Database unavailable, waiting 1 second...",
               Event.sleep 1]) ++
            [Event.checkCall, Event.write "Database available!"],
            RunResult.success) := by
  induction errs with
  | nil => rfl
  | cons k ks ih =>
      simp only [List.map_cons, List.cons_append, handleLoop, List.append_eq, ih,
        Option.map_some', List.flatMap_cons, List.cons_append, List.append_assoc,
        List.nil_append]

/-- The three events of one failed loop iteration: the check raises a
recognized connection error, the unavailability line is written, and the
command sleeps one second. -/
def failIter : List Event :=
  [Event.checkCall, Event.write "Database unavailable, waiting 1 second...",
   Event.sleep 1]

theorem checkCount_append (a b : List Event) :
    checkCount (a ++ b) = checkCount a + checkCount b :=
  List.countP_append _ _ _

theorem sleepCount_append (a b : List Event) :
    sleepCount (a ++ b) = sleepCount a + sleepCount b :=
  List.countP_append _ _ _

theorem writesOf_append (a b : List Event) :
    writesOf (a ++ b) = writesOf a ++ writesOf b :=
  List.filterMap_append a b _

theorem checkCount_failIters (errs : List ConnErrKind) :
    checkCount (errs.flatMap fun _ => failIter) = errs.length := by
  induction errs with
  | nil => rfl
  | cons k ks ih =>
      simp only [List.flatMap_cons, checkCount_append, ih, List.length_cons]
      show 1 + ks.length = ks.length + 1
      omega

theorem sleepCount_failIters (errs : List ConnErrKind) :
    sleepCount (errs.flatMap fun _ => failIter) = errs.length := by
  induction errs with
  | nil => rfl
  | cons k ks ih =>
      simp only [List.flatMap_cons, sleepCount_append, ih, List.length_cons]
      show 1 + ks.length = ks.length + 1
      omega

theorem writesOf_failIters (errs : List ConnErrKind) :
    writesOf (errs.flatMap fun _ => failIter) =
      List.replicate errs.length "Database unavailable, waiting 1 second..." := by
  induction errs with
  | nil => rfl
  | cons k ks ih =>
      simp only [List.flatMap_cons, writesOf_append, ih, List.length_cons,
        List.replicate_succ]
      rfl

theorem allSleepsOneSecond_append (a b : List Event) :
    allSleepsOneSecond (a ++ b) = (allSleepsOneSecond a && allSleepsOneSecond b) :=
  List.all_append

theorem allSleepsOneSecond_failIters (errs : List ConnErrKind) :
    allSleepsOneSecond (errs.flatMap fun _ => failIter) = true := by
  induction errs with
  | nil => rfl
  | cons k ks ih =>
      simp only [List.flatMap_cons, allSleepsOneSecond_append, ih, Bool.and_true]
      rfl

/-- C1: a check that fails `N` times with recognized connection errors (any
mix of the two classes) and then succeeds makes the waiter invoke the check
exactly `N + 1` times, sleep exactly `N` times (each sleep of 1 second,
between consecutive checks), and terminate with success. -/
theorem wait_for_db_retries_then_succeeds (errs : List ConnErrKind)
    (rest : List CheckOutcome) :
    ∃ evts,
      handle (errs.map CheckOutcome.connErr ++ CheckOutcome.ok :: rest) =
        some (evts, RunResult.success) ∧
      checkCount evts = errs.length + 1 ∧
      sleepCount evts = errs.length ∧
      allSleepsOneSecond evts = true := by
  refine ⟨Event.write "Waiting for database..." ::
      ((errs.flatMap fun _ => failIter) ++
        [Event.checkCall, Event.write "Database available!"]), ?_, ?_, ?_, ?_⟩
  · have h := handleLoop_conn_then_ok errs rest
    simp only [handle, h, Option.map_some', failIter]
  · show checkCount ([Event.write "Waiting for database..."] ++ _) = _
    simp only [List.append_eq, checkCount_append, checkCount_failIters]
    show 0 + (errs.length + 1) = errs.length + 1
    omega
  · show sleepCount ([Event.write "Waiting for database..."] ++ _) = _
    simp only [List.append_eq, sleepCount_append, sleepCount_failIters]
    show 0 + (errs.length + 0) = errs.length
    omega
  · show allSleepsOneSecond ([Event.write "Waiting for database..."] ++ _) = _
    simp only [List.append_eq, allSleepsOneSecond_append,
      allSleepsOneSecond_failIters]
    rfl

/-- C2: a check that raises a non-connection-class error makes the waiter
propagate that error unchanged, after exactly one check, with no sleep and
no success line (only the banner was written). -/
theorem wait_for_db_propagates_other_errors (e : String)
    (rest : List CheckOutcome) :
    handle (CheckOutcome.otherErr e :: rest) =
      some ([Event.write "Waiting for database...", Event.checkCall],
            RunResult.raised e) ∧
    checkCount [Event.write "Waiting for database...", Event.checkCall] = 1 ∧
    sleepCount [Event.write "Waiting for database...", Event.checkCall] = 0 ∧
    writesOf [Event.write "Waiting for database...", Event.checkCall] =
      ["Waiting for database..."] :=
  ⟨rfl, rfl, rfl, rfl⟩

/-- C3: a check that succeeds on its first invocation makes the waiter
perform exactly one check, sleep zero times, and terminate with success. -/
theorem wait_for_db_first_try_success (rest : List CheckOutcome) :
    handle (CheckOutcome.ok :: rest) =
      some ([Event.write "Waiting for database...", Event.checkCall,
             Event.write "Database available!"], RunResult.success) ∧
    checkCount [Event.write "Waiting for database...", Event.checkCall,
      Event.write "Database available!"] = 1 ∧
    sleepCount [Event.write "Waiting for database...", Event.checkCall,
      Event.write "Database available!"] = 0 :=
  ⟨rfl, rfl, rfl⟩

theorem handleLoop_raised_mem (outs : List CheckOutcome) (evts : List Event)
    (e : String) (h : handleLoop outs = some (evts, RunResult.raised e)) :
    CheckOutcome.otherErr e ∈ outs := by
  induction outs generalizing evts with
  | nil => simp [handleLoop] at h
  | cons o rest ih =>
      cases o with
      | ok => simp [handleLoop] at h
      | connErr k =>
          simp only [handleLoop] at h
          cases hl : handleLoop rest with
          | none => rw [hl] at h; simp at h
          | some p =>
              obtain ⟨evts0, r0⟩ := p
              rw [hl] at h
              simp only [Option.map_some', Option.some.injEq, Prod.mk.injEq] at h
              exact List.mem_cons_of_mem _ (ih evts0 (by rw [hl, h.2]))
      | otherErr e0 =>
          simp only [handleLoop, Option.some.injEq, Prod.mk.injEq,
            RunResult.raised.injEq] at h
          exact h.2 ▸ List.mem_cons_self _ _

/-- C4: the waiter never fails because of transient connection errors:
for any number `N` of consecutive connection failures the waiter still
reaches success (no upper bound on retries), and a run terminates with a
raised error only when the check raised a non-connection-class error. -/
theorem wait_for_db_no_transient_failure :
    (∀ (N : Nat) (k : ConnErrKind), ∃ evts,
        handle (List.replicate N (CheckOutcome.connErr k) ++ [CheckOutcome.ok]) =
          some (evts, RunResult.success)) ∧
    (∀ (outs : List CheckOutcome) (evts : List Event) (e : String),
        handle outs = some (evts, RunResult.raised e) →
        CheckOutcome.otherErr e ∈ outs) := by
  constructor
  · intro N k
    refine ⟨Event.write "Waiting for database..." ::
      (((List.replicate N k).flatMap fun _ => failIter) ++
        [Event.checkCall, Event.write "Database available!"]), ?_⟩
    have h := handleLoop_conn_then_ok (List.replicate N k) []
    rw [List.map_replicate] at h
    simp only [handle, h, Option.map_some', failIter]
  · intro outs evts e h
    simp only [handle] at h
    cases hl : handleLoop outs with
    | none => rw [hl] at h; simp at h
    | some p =>
        obtain ⟨evts0, r0⟩ := p
        rw [hl] at h
        simp only [Option.map_some', Option.some.injEq, Prod.mk.injEq] at h
        exact handleLoop_raised_mem outs evts0 e (by rw [hl, h.2])

/-- Closed instance of the no-transient-failure theorem: four failures then
success still succeeds, and a run that terminates raising `"denied"` had a
non-connection-class outcome `"denied"` among its check outcomes. -/
theorem wait_for_db_no_transient_failure_witness :
    (∃ evts,
        handle (List.replicate 4 (CheckOutcome.connErr ConnErrKind.psycopg2Op) ++
            [CheckOutcome.ok]) = some (evts, RunResult.success)) ∧
    CheckOutcome.otherErr "denied" ∈
      [CheckOutcome.connErr ConnErrKind.djangoOp, CheckOutcome.otherErr "denied"] :=
  ⟨wait_for_db_no_transient_failure.1 4 ConnErrKind.psycopg2Op,
   wait_for_db_no_transient_failure.2
     [CheckOutcome.connErr ConnErrKind.djangoOp, CheckOutcome.otherErr "denied"]
     [Event.write "Waiting for database...", Event.checkCall,
      Event.write "Database unavailable, waiting 1 second...", Event.sleep 1,
      Event.checkCall]
     "denied" rfl⟩

/-- The two states of the readiness waiter named by the spec. -/
inductive WState where
  | WAITING
  | READY
deriving DecidableEq, Repr

/-- Modelled from the spec: `State machine: two states — WAITING, READY.
Initial state WAITING.  Transition WAITING→WAITING on connection-failure
(side effect: sleep 1s, log).  Transition WAITING→READY on
connection-success (side effect: log success).  READY is terminal for this
invocation.`  Each transition is driven by one invocation of the connection
check, recorded as a `checkCall` event; `none` means the machine is still
in WAITING when the supplied outcomes run out. -/
def specMachineRun : List CheckOutcome → WState → Option (List Event × WState)
  | _, WState.READY => some ([], WState.READY)
  | [], WState.WAITING => none
  | o :: rest, WState.WAITING =>
      match o with
      | CheckOutcome.ok =>
          some ([Event.checkCall, Event.write "Database available!"], WState.READY)
      | CheckOutcome.connErr _ =>
          (specMachineRun rest WState.WAITING).map fun p =>
            (Event.checkCall
               :: Event.write "Database unavailable, waiting 1 second..."
               :: Event.sleep 1 :: p.1, p.2)
      | CheckOutcome.otherErr _ => none

/-- `true` iff every outcome in the list is a connection-level outcome
(success or one of the two recognized connection errors). -/
def connOnly (outs : List CheckOutcome) : Bool :=
  outs.all fun o => match o with
    | CheckOutcome.otherErr _ => false
    | _ => true

theorem specMachineRun_eq_handleLoop (outs : List CheckOutcome)
    (h : connOnly outs = true) :
    specMachineRun outs WState.WAITING =
      Option.map (fun p => (p.1, WState.READY)) (handleLoop outs) := by
  induction outs with
  | nil => rfl
  | cons o rest ih =>
      cases o with
      | ok => rfl
      | connErr k =>
          have hrest : connOnly rest = true := by
            simp only [connOnly, List.all_cons, Bool.and_eq_true] at h
            exact h.2
          simp only [specMachineRun, handleLoop, ih hrest]
          cases handleLoop rest with
          | none => rfl
          | some p => rfl
      | otherErr e =>
          simp [connOnly, List.all_cons] at h

theorem handleLoop_connOnly_success (outs : List CheckOutcome)
    (h : connOnly outs = true) (evts : List Event) (r : RunResult)
    (heq : handleLoop outs = some (evts, r)) : r = RunResult.success := by
  induction outs generalizing evts with
  | nil => simp [handleLoop] at heq
  | cons o rest ih =>
      cases o with
      | ok =>
          simp only [handleLoop, Option.some.injEq, Prod.mk.injEq] at heq
          exact heq.2.symm
      | connErr k =>
          have hrest : connOnly rest = true := by
            simp only [connOnly, List.all_cons, Bool.and_eq_true] at h
            exact h.2
          simp only [handleLoop] at heq
          cases hl : handleLoop rest with
          | none => rw [hl] at heq; simp at heq
          | some p =>
              obtain ⟨evts0, r0⟩ := p
              rw [hl] at heq
              simp only [Option.map_some', Option.some.injEq, Prod.mk.injEq] at heq
              exact ih hrest evts0 (by rw [hl, heq.2])
      | otherErr e => simp [connOnly, List.all_cons] at h

/-- C5: on connection-level outcomes the waiter is exactly the spec's
two-state machine: a terminating run of `handle` corresponds to the machine
reaching READY with the same event sequence (after the banner line) and
result success, and conversely; and READY is terminal — once reached, no
further checks, sleeps, or transitions occur. -/
theorem wait_for_db_refines_spec_machine :
    (∀ (outs : List CheckOutcome) (evts : List Event) (r : RunResult),
        connOnly outs = true → handle outs = some (evts, r) →
        r = RunResult.success ∧
        evts = Event.write "Waiting for database..." :: evts.tail ∧
        specMachineRun outs WState.WAITING = some (evts.tail, WState.READY)) ∧
    (∀ (outs : List CheckOutcome) (mevts : List Event) (s : WState),
        connOnly outs = true →
        specMachineRun outs WState.WAITING = some (mevts, s) →
        s = WState.READY ∧
        handle outs = some (Event.write "Waiting for database..." :: mevts,
          RunResult.success)) ∧
    (∀ outs : List CheckOutcome,
        specMachineRun outs WState.READY = some ([], WState.READY)) := by
  refine ⟨?_, ?_, ?_⟩
  · intro outs evts r h heq
    simp only [handle] at heq
    cases hl : handleLoop outs with
    | none => rw [hl] at heq; simp at heq
    | some p =>
        obtain ⟨evts0, r0⟩ := p
        rw [hl] at heq
        simp only [Option.map_some', Option.some.injEq, Prod.mk.injEq] at heq
        have he : evts = Event.write "Waiting for database..." :: evts0 :=
          heq.1.symm
        have hs := handleLoop_connOnly_success outs h evts0 r0 hl
        refine ⟨heq.2 ▸ hs, by simp [he], ?_⟩
        rw [specMachineRun_eq_handleLoop outs h, hl]
        simp [he]
  · intro outs mevts s h heq
    rw [specMachineRun_eq_handleLoop outs h] at heq
    cases hl : handleLoop outs with
    | none => rw [hl] at heq; simp at heq
    | some p =>
        obtain ⟨evts0, r0⟩ := p
        rw [hl] at heq
        simp only [Option.map_some', Option.some.injEq, Prod.mk.injEq] at heq
        have hr := handleLoop_connOnly_success outs h evts0 r0 hl
        refine ⟨heq.2.symm, ?_⟩
        simp only [handle, hl, Option.map_some', hr, heq.1]
  · intro outs
    cases outs with
    | nil => rfl
    | cons o rest => rfl

/-- Closed instance of the refinement theorem at the outcome list
`[connection error, success]`: the machine run and the waiter run agree. -/
theorem wait_for_db_refines_spec_machine_witness :
    (WState.READY = WState.READY ∧
      handle [CheckOutcome.connErr ConnErrKind.djangoOp, CheckOutcome.ok] =
        some (Event.write "Waiting for database..." ::
          [Event.checkCall, Event.write "Database unavailable, waiting 1 second...",
           Event.sleep 1, Event.checkCall, Event.write "Database available!"],
          RunResult.success)) ∧
    specMachineRun [CheckOutcome.connErr ConnErrKind.djangoOp, CheckOutcome.ok]
        WState.READY = some ([], WState.READY) :=
  ⟨wait_for_db_refines_spec_machine.2.1
      [CheckOutcome.connErr ConnErrKind.djangoOp, CheckOutcome.ok]
      [Event.checkCall, Event.write "Database unavailable, waiting 1 second...",
       Event.sleep 1, Event.checkCall, Event.write "Database available!"]
      WState.READY rfl rfl,
   wait_for_db_refines_spec_machine.2.2
      [CheckOutcome.connErr ConnErrKind.djangoOp, CheckOutcome.ok]⟩

theorem writesOf_failIter :
    writesOf failIter = ["Database unavailable, waiting 1 second..."] := rfl

theorem sleepCount_failIter : sleepCount failIter = 1 := rfl

theorem checkCount_failIter : checkCount failIter = 1 := rfl

/-- The lines written after the loop body, by result: the success line on
normal termination, nothing when an exception propagates. -/
def tailLines (r : RunResult) : List String :=
  match r with
  | RunResult.success => ["Database available!"]
  | RunResult.raised _ => []

theorem handleLoop_writes (outs : List CheckOutcome) (evts : List Event)
    (r : RunResult) (h : handleLoop outs = some (evts, r)) :
    writesOf evts =
      List.replicate (sleepCount evts) "Database unavailable, waiting 1 second..." ++
        tailLines r ∧
    checkCount evts = sleepCount evts + 1 := by
  induction outs generalizing evts r with
  | nil => simp [handleLoop] at h
  | cons o rest ih =>
      cases o with
      | ok =>
          simp only [handleLoop, Option.some.injEq, Prod.mk.injEq] at h
          rw [← h.1, ← h.2]
          exact ⟨rfl, rfl⟩
      | connErr k =>
          simp only [handleLoop] at h
          cases hl : handleLoop rest with
          | none => rw [hl] at h; simp at h
          | some p =>
              obtain ⟨evts0, r0⟩ := p
              rw [hl] at h
              simp only [Option.map_some', Option.some.injEq, Prod.mk.injEq] at h
              obtain ⟨ih1, ih2⟩ := ih evts0 r0 hl
              rw [← h.1, ← h.2]
              have hsplit : Event.checkCall
                  :: Event.write "Database unavailable, waiting 1 second..."
                  :: Event.sleep 1 :: evts0 = failIter ++ evts0 := rfl
              constructor
              · rw [hsplit, writesOf_append, sleepCount_append, writesOf_failIter,
                  sleepCount_failIter, ih1, List.replicate_add]
                simp
              · rw [hsplit, checkCount_append, sleepCount_append, checkCount_failIter,
                  sleepCount_failIter, ih2]
                omega
      | otherErr e =>
          simp only [handleLoop, Option.some.injEq, Prod.mk.injEq] at h
          rw [← h.1, ← h.2]
          exact ⟨rfl, rfl⟩

/-- C6: in every terminating run, the lines on stdout are the banner
`"Waiting for database..."` exactly once, first; then
`"Database unavailable, waiting 1 second..."` exactly once per failed
(connection-error) attempt; then `"Database available!"` exactly once at
the end iff the run succeeded (and the number of checks is the number of
failed attempts plus one). -/
theorem wait_for_db_output_lines :
    ∀ (outs : List CheckOutcome) (evts : List Event) (r : RunResult),
      handle outs = some (evts, r) →
      writesOf evts =
        "Waiting for database..." ::
          (List.replicate (sleepCount evts)
              "Database unavailable, waiting 1 second..." ++ tailLines r) ∧
      checkCount evts = sleepCount evts + 1 := by
  intro outs evts r h
  simp only [handle] at h
  cases hl : handleLoop outs with
  | none => rw [hl] at h; simp at h
  | some p =>
      obtain ⟨evts0, r0⟩ := p
      rw [hl] at h
      simp only [Option.map_some', Option.some.injEq, Prod.mk.injEq] at h
      obtain ⟨h1, h2⟩ := handleLoop_writes outs evts0 r0 hl
      rw [← h.1, ← h.2]
      have hw : writesOf (Event.write "Waiting for database..." :: evts0) =
          "Waiting for database..." :: writesOf evts0 := rfl
      have hs : sleepCount (Event.write "Waiting for database..." :: evts0) =
          sleepCount evts0 := rfl
      have hc : checkCount (Event.write "Waiting for database..." :: evts0) =
          checkCount evts0 := rfl
      rw [hw, hs, hc, h1, h2]
      exact ⟨rfl, rfl⟩

/-- Closed instance of the output-lines theorem on the run with one
connection failure followed by a non-connection error. -/
theorem wait_for_db_output_lines_witness :
    writesOf [Event.write "Waiting for database...", Event.checkCall,
        Event.write "Database unavailable, waiting 1 second...", Event.sleep 1,
        Event.checkCall] =
      "Waiting for database..." ::
        (List.replicate
            (sleepCount [Event.write "Waiting for database...", Event.checkCall,
              Event.write "Database unavailable, waiting 1 second...",
              Event.sleep 1, Event.checkCall])
            "Database unavailable, waiting 1 second..." ++ []) ∧
    checkCount [Event.write "Waiting for database...", Event.checkCall,
        Event.write "Database unavailable, waiting 1 second...", Event.sleep 1,
        Event.checkCall] =
      sleepCount [Event.write "Waiting for database...", Event.checkCall,
        Event.write "Database unavailable, waiting 1 second...", Event.sleep 1,
        Event.checkCall] + 1 :=
  wait_for_db_output_lines
    [CheckOutcome.connErr ConnErrKind.psycopg2Op, CheckOutcome.otherErr "denied"]
    [Event.write "Waiting for database...", Event.checkCall,
     Event.write "Database unavailable, waiting 1 second...", Event.sleep 1,
     Event.checkCall]
    (RunResult.raised "denied") rfl

/-- C7: against an already-ready database (a check that always succeeds),
two sequential runs of the waiter behave identically: each performs exactly
one check, sleeps zero times, and reports success. -/
theorem wait_for_db_idempotent_when_ready (rest₁ rest₂ : List CheckOutcome) :
    handle (CheckOutcome.ok :: rest₁) = handle (CheckOutcome.ok :: rest₂) ∧
    handle (CheckOutcome.ok :: rest₁) =
      some ([Event.write "Waiting for database...", Event.checkCall,
             Event.write "Database available!"], RunResult.success) ∧
    checkCount [Event.write "Waiting for database...", Event.checkCall,
      Event.write "Database available!"] = 1 ∧
    sleepCount [Event.write "Waiting for database...", Event.checkCall,
      Event.write "Database available!"] = 0 :=
  ⟨rfl, rfl, rfl, rfl⟩

end WaitForDb

namespace Models

theorem strData_append (a b : String) : (a ++ b).data = a.data ++ b.data := by
  cases a
  cases b
  rfl

/-- Python's `str.strip()` on ASCII whitespace: drop leading and trailing
whitespace characters. -/
def pyStrip (s : String) : String :=
  String.mk (((s.data.dropWhile Char.isWhitespace).reverse.dropWhile
    Char.isWhitespace).reverse)

/-- Python's `rsplit(c, 1)` on a character list: split at the LAST
occurrence of `c`, returning the parts before and after it, or `none` when
`c` does not occur. -/
def rsplitLast (c : Char) : List Char → Option (List Char × List Char)
  | [] => none
  | a :: rest =>
      match rsplitLast c rest with
      | some (l, r) => some (a :: l, r)
      | none => if a = c then some ([], rest) else none

/-- Modelled from the spec: the framework's `BaseUserManager.normalize_email`
(a Django dependency whose code is not under `src/`), which `create_user`
applies to the email before saving: strip surrounding whitespace, split at
the last `"@"`, and lowercase the domain part; an email without `"@"` is
returned unchanged. -/
def normalize_email (email : String) : String :=
  match rsplitLast '@' (pyStrip email).data with
  | some (namePart, domainPart) =>
      String.mk (namePart ++ '@' :: domainPart.map Char.toLower)
  | none => email

/-- A saved user row: the stored email, the password recorded by
`set_password`, and the extra fields forwarded to the model constructor. -/
structure DjUser where
  email : String
  password : Option String
  extraFields : List (String × String)
deriving DecidableEq, Repr

/-- `UserManager.create_user`: `if not email: raise ValueError(...)`;
otherwise build the user with `self.normalize_email(email)`, set the
password, save the user into the database, and return it.  An `Except.error`
models the raised `ValueError`: no user value is produced and the database
list is not extended. -/
def create_user (email : String) (password : Option String)
    (extraFields : List (String × String)) (db : List DjUser) :
    Except String (DjUser × List DjUser) :=
  if email = "" then Except.error "Users must have an email address."
  else
    let user : DjUser :=
      { email := normalize_email email, password := password,
        extraFields := extraFields }
    Except.ok (user, db ++ [user])

theorem rsplitLast_eq_none (c : Char) (l : List Char) (h : c ∉ l) :
    rsplitLast c l = none := by
  induction l with
  | nil => rfl
  | cons a rest ih =>
      have ha : a ≠ c := fun he => h (he ▸ List.mem_cons_self _ _)
      have hrest : c ∉ rest := fun hm => h (List.mem_cons_of_mem _ hm)
      simp only [rsplitLast, ih hrest, if_neg ha]

theorem rsplitLast_append (c : Char) (l r : List Char) (h : c ∉ r) :
    rsplitLast c (l ++ c :: r) = some (l, r) := by
  induction l with
  | nil =>
      simp only [List.nil_append, rsplitLast, rsplitLast_eq_none c r h, if_true,
        if_pos trivial]
  | cons a as ih =>
      simp only [List.cons_append, rsplitLast, List.append_eq, ih]

/-- C8: `create_user` raises `ValueError` on an empty email, producing no
user and no save; on a non-empty email it does not raise, and the saved
user's email is the input passed through `normalize_email`; and
`normalize_email` lowercases exactly the domain part of a whitespace-free
email whose domain contains no further `"@"`. -/
theorem create_user_email_validation :
    (∀ (password : Option String) (extra : List (String × String))
        (db : List DjUser),
        create_user "" password extra db =
          Except.error "Users must have an email address.") ∧
    (∀ (email : String) (password : Option String)
        (extra : List (String × String)) (db : List DjUser), email ≠ "" →
        create_user email password extra db =
          Except.ok
            ({ email := normalize_email email, password := password,
               extraFields := extra },
             db ++ [{ email := normalize_email email, password := password,
                      extraFields := extra }])) ∧
    (∀ lp dp : String,
        dp.data.all (fun ch => ch != '@') = true →
        pyStrip (lp ++ "@" ++ dp) = lp ++ "@" ++ dp →
        normalize_email (lp ++ "@" ++ dp) =
          lp ++ "@" ++ String.mk (dp.data.map Char.toLower)) := by
  refine ⟨fun _ _ _ => rfl, ?_, ?_⟩
  · intro email password extra db h
    simp only [create_user, if_neg h]
  · intro lp dp hall htrim
    have hmem : '@' ∉ dp.data := by
      simp only [List.all_eq_true, bne_iff_ne, ne_eq] at hall
      exact fun hm => hall '@' hm rfl
    have hdata : (lp ++ "@" ++ dp).data = lp.data ++ '@' :: dp.data := by
      rw [strData_append, strData_append]
      simp [List.append_assoc]
    simp only [normalize_email, htrim, hdata,
      rsplitLast_append '@' lp.data dp.data hmem]
    exact congrArg String.mk
      (List.append_assoc lp.data ['@'] (dp.data.map Char.toLower)).symm

/-- Closed instance of the `create_user` theorem: the empty email is
rejected; `"Bob@Example.COM"` is accepted and stored with its domain
lowercased. -/
theorem create_user_email_validation_witness :
    create_user "" (some "pw") [] [] =
      Except.error "Users must have an email address." ∧
    create_user "Bob@Example.COM" (some "pw") [] [] =
      Except.ok
        ({ email := normalize_email "Bob@Example.COM", password := some "pw",
           extraFields := [] },
         [] ++ [{ email := normalize_email "Bob@Example.COM",
                  password := some "pw", extraFields := [] }]) ∧
    normalize_email ("Bob" ++ "@" ++ "Example.COM") =
      "Bob" ++ "@" ++ String.mk ("Example.COM".data.map Char.toLower) :=
  ⟨create_user_email_validation.1 (some "pw") [] [],
   create_user_email_validation.2.1 "Bob@Example.COM" (some "pw") [] []
     (by decide),
   create_user_email_validation.2.2 "Bob" "Example.COM" (by decide) (by decide)⟩

end Models

namespace Serializers

/-- A tag row as produced by
`Tag.objects.get_or_create(user=auth_user, **tag)`: the authenticated owner
and the tag payload's name field. -/
structure MTag where
  user : String
  name : String
deriving DecidableEq, Repr

/-- An ingredient row as produced by
`Ingredient.objects.get_or_create(user=auth_user, **ingredient)`. -/
structure MIngredient where
  user : String
  name : String
deriving DecidableEq, Repr

/-- The state of a `Recipe` instance touched by `RecipeSerializer.update`:
its two many-to-many relations and its scalar attributes (the `setattr`
targets) as an attribute-name/value association list with distinct keys. -/
structure RecipeObj where
  tags : List MTag
  ingredients : List MIngredient
  attrs : List (String × String)
deriving DecidableEq, Repr

/-- Django's many-to-many `add`: a no-op when the row is already related,
otherwise the row is appended. -/
def m2mAdd {α : Type} [DecidableEq α] (x : α) (xs : List α) : List α :=
  if x ∈ xs then xs else xs ++ [x]

/-- `RecipeSerializer._get_or_create_tags`: for each tag payload,
get-or-create the tag row owned by the authenticated user and add it to the
recipe's tag relation. -/
def get_or_create_tags (authUser : String) (tags : List String)
    (recipe : RecipeObj) : RecipeObj :=
  { recipe with
      tags := tags.foldl (fun acc n => m2mAdd (MTag.mk authUser n) acc)
        recipe.tags }

/-- `RecipeSerializer._get_or_create_ingredients`: the same for
ingredient payloads. -/
def get_or_create_ingredients (authUser : String) (ingredients : List String)
    (recipe : RecipeObj) : RecipeObj :=
  { recipe with
      ingredients := ingredients.foldl
        (fun acc n => m2mAdd (MIngredient.mk authUser n) acc)
        recipe.ingredients }

/-- `setattr(instance, k, v)` on an association list: replace the binding
of `k` when present, append it otherwise. -/
def setattrA : List (String × String) → String → String → List (String × String)
  | [], k, v => [(k, v)]
  | (k0, v0) :: rest, k, v =>
      if k0 = k then (k, v) :: rest else (k0, v0) :: setattrA rest k v

/-- `getattr(instance, k)` on an association list. -/
def getattrA : List (String × String) → String → Option String
  | [], _ => none
  | (k0, v0) :: rest, k => if k0 = k then some v0 else getattrA rest k

/-- The `validated_data` dict after field validation: the optional `tags`
and `ingredients` keys (absent, or present with a list of payloads — the
empty list included), and the remaining scalar items.  A Python dict has
distinct keys, so theorems about the remaining items assume `Nodup` keys. -/
structure ValidatedData where
  tags : Option (List String)
  ingredients : Option (List String)
  fields : List (String × String)
deriving DecidableEq, Repr

/-- `RecipeSerializer.update`: pop `tags` and `ingredients` from
`validated_data` (default `None`); when present, clear the corresponding
relation and get-or-create the listed payloads; assign every remaining
item onto the instance with `setattr`; save and return the instance. -/
def update (authUser : String) (inst : RecipeObj) (vd : ValidatedData) :
    RecipeObj :=
  let inst1 :=
    match vd.tags with
    | none => inst
    | some ts => get_or_create_tags authUser ts { inst with tags := [] }
  let inst2 :=
    match vd.ingredients with
    | none => inst1
    | some ins => get_or_create_ingredients authUser ins
        { inst1 with ingredients := [] }
  { inst2 with
      attrs := vd.fields.foldl (fun a kv => setattrA a kv.1 kv.2) inst2.attrs }

theorem mem_m2mAdd {α : Type} [DecidableEq α] (a x : α) (l : List α) :
    x ∈ m2mAdd a l ↔ x ∈ l ∨ x = a := by
  unfold m2mAdd
  by_cases h : a ∈ l
  · rw [if_pos h]
    constructor
    · exact fun hx => Or.inl hx
    · rintro (hx | rfl)
      · exact hx
      · exact h
  · rw [if_neg h]
    simp [List.mem_append]

theorem mem_foldl_m2mAdd {α β : Type} [DecidableEq α] (f : β → α)
    (xs : List β) (acc : List α) (x : α) :
    x ∈ xs.foldl (fun a y => m2mAdd (f y) a) acc ↔
      x ∈ acc ∨ x ∈ xs.map f := by
  induction xs generalizing acc with
  | nil => simp
  | cons y ys ih =>
      simp only [List.foldl_cons, ih, mem_m2mAdd, List.map_cons, List.mem_cons]
      tauto

theorem getattrA_setattrA_same (attrs : List (String × String))
    (k v : String) : getattrA (setattrA attrs k v) k = some v := by
  induction attrs with
  | nil => simp [setattrA, getattrA]
  | cons kv rest ih =>
      obtain ⟨k0, v0⟩ := kv
      by_cases h : k0 = k
      · simp [setattrA, if_pos h, getattrA]
      · simp only [setattrA, if_neg h, getattrA, ih]

theorem getattrA_setattrA_other (attrs : List (String × String))
    (k0 v0 k : String) (h : k0 ≠ k) :
    getattrA (setattrA attrs k0 v0) k = getattrA attrs k := by
  induction attrs with
  | nil => simp [setattrA, getattrA, if_neg h]
  | cons kv rest ih =>
      obtain ⟨k1, v1⟩ := kv
      by_cases h1 : k1 = k0
      · simp only [setattrA, if_pos h1, getattrA, h1, if_neg h]
      · simp only [setattrA, if_neg h1, getattrA, ih]

theorem getattrA_foldl_not_mem (fields : List (String × String))
    (attrs : List (String × String)) (k : String)
    (h : k ∉ fields.map Prod.fst) :
    getattrA (fields.foldl (fun a kv => setattrA a kv.1 kv.2) attrs) k =
      getattrA attrs k := by
  induction fields generalizing attrs with
  | nil => rfl
  | cons kv rest ih =>
      obtain ⟨k0, v0⟩ := kv
      simp only [List.map_cons, List.mem_cons] at h
      push_neg at h
      rw [List.foldl_cons, ih _ h.2, getattrA_setattrA_other _ _ _ _ ?_]
      exact fun he => h.1 he.symm

theorem getattrA_foldl_mem (fields : List (String × String))
    (attrs : List (String × String)) (k v : String)
    (hnd : (fields.map Prod.fst).Nodup) (hmem : (k, v) ∈ fields) :
    getattrA (fields.foldl (fun a kv => setattrA a kv.1 kv.2) attrs) k =
      some v := by
  induction fields generalizing attrs with
  | nil => exact absurd hmem (List.not_mem_nil _)
  | cons kv rest ih =>
      obtain ⟨k0, v0⟩ := kv
      simp only [List.map_cons, List.nodup_cons] at hnd
      rcases List.mem_cons.mp hmem with heq | htail
      · rw [Prod.mk.injEq] at heq
        obtain ⟨hk, hv⟩ := heq
        subst hk
        subst hv
        rw [List.foldl_cons, getattrA_foldl_not_mem rest _ k hnd.1,
          getattrA_setattrA_same]
      · rw [List.foldl_cons]
        exact ih (setattrA attrs k0 v0) hnd.2 htail

theorem update_tags (authUser : String) (inst : RecipeObj)
    (vd : ValidatedData) :
    (update authUser inst vd).tags =
      match vd.tags with
      | none => inst.tags
      | some ts => ts.foldl (fun acc n => m2mAdd (MTag.mk authUser n) acc) [] := by
  cases htags : vd.tags <;> cases hing : vd.ingredients <;>
    simp [update, get_or_create_tags, get_or_create_ingredients, htags, hing]

theorem update_ingredients (authUser : String) (inst : RecipeObj)
    (vd : ValidatedData) :
    (update authUser inst vd).ingredients =
      match vd.ingredients with
      | none => inst.ingredients
      | some ins =>
          ins.foldl (fun acc n => m2mAdd (MIngredient.mk authUser n) acc) [] := by
  cases htags : vd.tags <;> cases hing : vd.ingredients <;>
    simp [update, get_or_create_tags, get_or_create_ingredients, htags, hing]

theorem update_attrs (authUser : String) (inst : RecipeObj)
    (vd : ValidatedData) :
    (update authUser inst vd).attrs =
      vd.fields.foldl (fun a kv => setattrA a kv.1 kv.2) inst.attrs := by
  cases htags : vd.tags <;> cases hing : vd.ingredients <;>
    simp [update, get_or_create_tags, get_or_create_ingredients, htags, hing]

/-- C9: in `RecipeSerializer.update`, an absent `tags` key leaves the tag
relation unchanged while a present one (the empty list included) clears it
and replaces it by exactly the listed tags (owned by the authenticated
user); the same holds for `ingredients`; every remaining validated field is
assigned onto the instance, and attributes not among the validated fields
keep their values. -/
theorem recipe_update_tags_ingredients_frame (authUser : String)
    (inst : RecipeObj) (vd : ValidatedData) :
    (vd.tags = none → (update authUser inst vd).tags = inst.tags) ∧
    (∀ ts, vd.tags = some ts → ∀ t,
        t ∈ (update authUser inst vd).tags ↔
          t ∈ ts.map (MTag.mk authUser)) ∧
    (vd.ingredients = none →
        (update authUser inst vd).ingredients = inst.ingredients) ∧
    (∀ ins, vd.ingredients = some ins → ∀ i,
        i ∈ (update authUser inst vd).ingredients ↔
          i ∈ ins.map (MIngredient.mk authUser)) ∧
    ((vd.fields.map Prod.fst).Nodup →
        (∀ k v, (k, v) ∈ vd.fields →
            getattrA (update authUser inst vd).attrs k = some v) ∧
        (∀ k, k ∉ vd.fields.map Prod.fst →
            getattrA (update authUser inst vd).attrs k =
              getattrA inst.attrs k)) := by
  refine ⟨?_, ?_, ?_, ?_, ?_⟩
  · intro h
    rw [update_tags, h]
  · intro ts h t
    rw [update_tags, h]
    simp only [mem_foldl_m2mAdd, List.not_mem_nil, false_or]
  · intro h
    rw [update_ingredients, h]
  · intro ins h i
    rw [update_ingredients, h]
    simp only [mem_foldl_m2mAdd, List.not_mem_nil, false_or]
  · intro hnd
    constructor
    · intro k v hm
      rw [update_attrs]
      exact getattrA_foldl_mem vd.fields inst.attrs k v hnd hm
    · intro k hnm
      rw [update_attrs]
      exact getattrA_foldl_not_mem vd.fields inst.attrs k hnm

/-- Closed instance of the update theorem on a concrete recipe: tags are
kept when the key is absent, replaced when present, an empty ingredient
list clears the relation, the validated `title` is assigned, and the
untouched `link` attribute keeps its value. -/
theorem recipe_update_tags_ingredients_frame_witness :
    (update "alice"
        (RecipeObj.mk [MTag.mk "alice" "old"] [MIngredient.mk "alice" "salt"]
          [("title", "Old"), ("link", "x")])
        (ValidatedData.mk none none [("title", "New")])).tags =
      (RecipeObj.mk [MTag.mk "alice" "old"] [MIngredient.mk "alice" "salt"]
        [("title", "Old"), ("link", "x")]).tags ∧
    (MTag.mk "alice" "t1" ∈
        (update "alice"
          (RecipeObj.mk [MTag.mk "alice" "old"] [MIngredient.mk "alice" "salt"]
            [("title", "Old"), ("link", "x")])
          (ValidatedData.mk (some ["t1", "t2"]) (some []) [])).tags ↔
      MTag.mk "alice" "t1" ∈ ["t1", "t2"].map (MTag.mk "alice")) ∧
    (MIngredient.mk "alice" "salt" ∈
        (update "alice"
          (RecipeObj.mk [MTag.mk "alice" "old"] [MIngredient.mk "alice" "salt"]
            [("title", "Old"), ("link", "x")])
          (ValidatedData.mk (some ["t1", "t2"]) (some []) [])).ingredients ↔
      MIngredient.mk "alice" "salt" ∈
        ([] : List String).map (MIngredient.mk "alice")) ∧
    getattrA
        (update "alice"
          (RecipeObj.mk [MTag.mk "alice" "old"] [MIngredient.mk "alice" "salt"]
            [("title", "Old"), ("link", "x")])
          (ValidatedData.mk none none [("title", "New")])).attrs "title" =
      some "New" ∧
    getattrA
        (update "alice"
          (RecipeObj.mk [MTag.mk "alice" "old"] [MIngredient.mk "alice" "salt"]
            [("title", "Old"), ("link", "x")])
          (ValidatedData.mk none none [("title", "New")])).attrs "link" =
      getattrA
        (RecipeObj.mk [MTag.mk "alice" "old"] [MIngredient.mk "alice" "salt"]
          [("title", "Old"), ("link", "x")]).attrs "link" :=
  ⟨(recipe_update_tags_ingredients_frame "alice"
      (RecipeObj.mk [MTag.mk "alice" "old"] [MIngredient.mk "alice" "salt"]
        [("title", "Old"), ("link", "x")])
      (ValidatedData.mk none none [("title", "New")])).1 rfl,
   (recipe_update_tags_ingredients_frame "alice"
      (RecipeObj.mk [MTag.mk "alice" "old"] [MIngredient.mk "alice" "salt"]
        [("title", "Old"), ("link", "x")])
      (ValidatedData.mk (some ["t1", "t2"]) (some []) [])).2.1
      ["t1", "t2"] rfl (MTag.mk "alice" "t1"),
   (recipe_update_tags_ingredients_frame "alice"
      (RecipeObj.mk [MTag.mk "alice" "old"] [MIngredient.mk "alice" "salt"]
        [("title", "Old"), ("link", "x")])
      (ValidatedData.mk (some ["t1", "t2"]) (some []) [])).2.2.2.1
      [] rfl (MIngredient.mk "alice" "salt"),
   ((recipe_update_tags_ingredients_frame "alice"
      (RecipeObj.mk [MTag.mk "alice" "old"] [MIngredient.mk "alice" "salt"]
        [("title", "Old"), ("link", "x")])
      (ValidatedData.mk none none [("title", "New")])).2.2.2.2
      (by decide)).1 "title" "New" (by decide),
   ((recipe_update_tags_ingredients_frame "alice"
      (RecipeObj.mk [MTag.mk "alice" "old"] [MIngredient.mk "alice" "salt"]
        [("title", "Old"), ("link", "x")])
      (ValidatedData.mk none none [("title", "New")])).2.2.2.2
      (by decide)).2 "link" (by decide)⟩

end Serializers

namespace Paths

/-- Index of the last occurrence of `c` in the list, if any. -/
def lastIdxOf (c : Char) : List Char → Option Nat
  | [] => none
  | a :: rest =>
      match lastIdxOf c rest with
      | some i => some (i + 1)
      | none => if a = c then some 0 else none

/-- Python's `os.path.splitext` (posix): split off the extension at the last
dot of the last path component, unless every character of that component up
to the dot is itself a dot (so `".bashrc"` has no extension). -/
def splitext (p : String) : String × String :=
  let l := p.data
  let bstart : Nat :=
    match lastIdxOf '/' l with
    | some i => i + 1
    | none => 0
  match lastIdxOf '.' l with
  | none => (p, "")
  | some d =>
      if Nat.ble bstart d &&
          ((l.drop bstart).take (d - bstart)).any (fun ch => ch != '.') then
        (String.mk (l.take d), String.mk (l.drop d))
      else (p, "")

/-- `true` iff the string begins with the posix path separator. -/
def isAbsB (s : String) : Bool :=
  match s.data with
  | [] => false
  | c :: _ => c = '/'

/-- `true` iff the string ends with the posix path separator. -/
def endsWithSlash (s : String) : Bool :=
  match s.data.getLast? with
  | some c => c = '/'
  | none => false

/-- Python's `os.path.join` (posix) for two components: an absolute second
component replaces the first; otherwise the components are joined with a
separator unless one is already there. -/
def posixJoin2 (a b : String) : String :=
  if isAbsB b then b
  else if a = "" || endsWithSlash a then a ++ b
  else a ++ "/" ++ b

/-- `recipe_image_file_path(instance, filename)`: take the extension of the
uploaded filename (`os.path.splitext(filename)[1]`), build the new filename
from a generated uuid4 string and that extension, and join it under
`uploads/recipe`.  The generated `str(uuid.uuid4())` is abstracted as the
`uuidStr` argument. -/
def recipe_image_file_path (uuidStr filename : String) : String :=
  posixJoin2 (posixJoin2 "uploads" "recipe") (uuidStr ++ (splitext filename).2)

/-- `true` iff `pat` is a leading run of `s`. -/
def startsWithL : List Char → List Char → Bool
  | [], _ => true
  | _ :: _, [] => false
  | a :: as0, b :: bs => a == b && startsWithL as0 bs

/-- `true` iff `needle` occurs contiguously somewhere in the list. -/
def containsSubL (needle : List Char) : List Char → Bool
  | [] => needle.isEmpty
  | b :: bs => startsWithL needle (b :: bs) || containsSubL needle bs

/-- `true` iff `needle` occurs as a contiguous substring of `haystack`. -/
def occursIn (needle haystack : String) : Bool :=
  containsSubL needle.data haystack.data

/-- C10 counterexample: the uploaded filename `"recipe.jpg"` has base name
`"recipe"` and extension `".jpg"`, yet the returned path does contain the
base name (inside the constant `uploads/recipe` directory), so `the
original base name of the uploaded file never appears in the returned
path` is false as stated. -/
theorem recipe_image_file_path_base_name_counterexample :
    (splitext "recipe.jpg").1 = "recipe" ∧
    (splitext "recipe.jpg").2 = ".jpg" ∧
    occursIn "recipe"
      (recipe_image_file_path "51f1f3b2-0d0e-4d52-9e7c-3f0a62caa42e"
        "recipe.jpg") = true := by
  refine ⟨?_, ?_, ?_⟩ <;> decide

/-- C10 amended: for every uuid string that is nonempty and does not start
with the path separator (as `str(uuid.uuid4())` always is) and every input
filename, the returned path is exactly
`"uploads/recipe/" ++ uuid ++ ext` with `ext` the extension of the input
filename (with its leading dot, empty when there is none), and the path
does not depend on the base name: filenames with equal extensions give
equal paths (though the base-name string may coincide with other text of
the path, such as the `recipe` directory). -/
theorem recipe_image_file_path_amended (u filename : String)
    (hne : u ≠ "") (habs : u.data.head? ≠ some '/') :
    recipe_image_file_path u filename =
      "uploads/recipe/" ++ u ++ (splitext filename).2 ∧
    ∀ g : String, (splitext g).2 = (splitext filename).2 →
      recipe_image_file_path u g = recipe_image_file_path u filename := by
  constructor
  · obtain ⟨l⟩ := u
    cases l with
    | nil => exact absurd rfl hne
    | cons c cs =>
        have hc : c ≠ '/' := by
          intro h
          exact habs (by rw [h]; rfl)
        have h1 : isAbsB (String.mk (c :: cs) ++ (splitext filename).2) =
            false := by
          show decide (c = '/') = false
          exact decide_eq_false hc
        have h2 : posixJoin2 "uploads" "recipe" = "uploads/recipe" := rfl
        simp only [recipe_image_file_path]
        rw [h2]
        unfold posixJoin2
        rw [h1]
        have hf : ¬ (false = true) := by decide
        have h3 : (decide ("uploads/recipe" = "") ||
            endsWithSlash "uploads/recipe") = false := by decide
        rw [if_neg hf, h3, if_neg hf]
        rfl
  · intro g hg
    simp only [recipe_image_file_path, hg]

/-- Closed instance of the amended path theorem at a concrete uuid:
`"photo.png"` maps to `uploads/recipe/<uuid>.png`, and `"other.png"`
(same extension, different base name) maps to the same path. -/
theorem recipe_image_file_path_amended_witness :
    recipe_image_file_path "51f1f3b2-0d0e-4d52-9e7c-3f0a62caa42e" "photo.png" =
      "uploads/recipe/" ++ "51f1f3b2-0d0e-4d52-9e7c-3f0a62caa42e" ++
        (splitext "photo.png").2 ∧
    recipe_image_file_path "51f1f3b2-0d0e-4d52-9e7c-3f0a62caa42e" "other.png" =
      recipe_image_file_path "51f1f3b2-0d0e-4d52-9e7c-3f0a62caa42e"
        "photo.png" :=
  ⟨(recipe_image_file_path_amended "51f1f3b2-0d0e-4d52-9e7c-3f0a62caa42e"
      "photo.png" (by decide) (by decide)).1,
   (recipe_image_file_path_amended "51f1f3b2-0d0e-4d52-9e7c-3f0a62caa42e"
      "photo.png" (by decide) (by decide)).2 "other.png" (by decide)⟩

end Paths
